import Mathlib

/-!
# Si5351 clock generator: header constants, tracker queries and the frequency plan

Shallow embedding of `src/software/si5351-clock/si5351.h` (register map and
hardware limits) and `src/software/si5351-clock/si5351mcu.h` (library state,
inline query functions), together with the pieces of the frequency planner
that the design document describes.

Machine integers are natural numbers; the width of each C type is recorded
next to the definition that carries it.
-/

namespace Si5351

/-! ## Constants of `si5351.h` -/

/-- Macro `#define SI5351_PLL_VCO_MIN 600000000` -/
def SI5351_PLL_VCO_MIN : Nat := 600000000
/-- Macro `#define SI5351_PLL_VCO_MAX 900000000` -/
def SI5351_PLL_VCO_MAX : Nat := 900000000
/-- Macro `#define SI5351_MULTISYNTH_MIN_FREQ 500000` -/
def SI5351_MULTISYNTH_MIN_FREQ : Nat := 500000
/-- Macro `#define SI5351_MULTISYNTH_DIVBY4_FREQ 150000000` -/
def SI5351_MULTISYNTH_DIVBY4_FREQ : Nat := 150000000
/-- Macro `#define SI5351_MULTISYNTH_MAX_FREQ 225000000` -/
def SI5351_MULTISYNTH_MAX_FREQ : Nat := 225000000
/-- Macro `#define SI5351_CLKOUT_MIN_FREQ 4000` -/
def SI5351_CLKOUT_MIN_FREQ : Nat := 4000
/-- Macro `#define SI5351_CLKOUT_MAX_FREQ SI5351_MULTISYNTH_MAX_FREQ` -/
def SI5351_CLKOUT_MAX_FREQ : Nat := SI5351_MULTISYNTH_MAX_FREQ

/-- Macro `#define SI5351_PLL_A_MIN 15` -/
def SI5351_PLL_A_MIN : Nat := 15
/-- Macro `#define SI5351_PLL_A_MAX 90` -/
def SI5351_PLL_A_MAX : Nat := 90
/-- Macro `#define SI5351_PLL_C_MAX 1048575` -/
def SI5351_PLL_C_MAX : Nat := 1048575
/-- Macro `#define SI5351_PLL_B_MAX (SI5351_PLL_C_MAX-1)` -/
def SI5351_PLL_B_MAX : Nat := SI5351_PLL_C_MAX - 1
/-- Macro `#define SI5351_MULTISYNTH_A_MIN 6` -/
def SI5351_MULTISYNTH_A_MIN : Nat := 6
/-- Macro `#define SI5351_MULTISYNTH_A_MAX 1800` -/
def SI5351_MULTISYNTH_A_MAX : Nat := 1800
/-- Macro `#define SI5351_MULTISYNTH67_A_MAX 254` -/
def SI5351_MULTISYNTH67_A_MAX : Nat := 254
/-- Macro `#define SI5351_MULTISYNTH_C_MAX 1048575` -/
def SI5351_MULTISYNTH_C_MAX : Nat := 1048575
/-- Macro `#define SI5351_MULTISYNTH_B_MAX (SI5351_MULTISYNTH_C_MAX-1)` -/
def SI5351_MULTISYNTH_B_MAX : Nat := SI5351_MULTISYNTH_C_MAX - 1
/-- Macro `#define SI5351_MULTISYNTH_P1_MAX ((1<<18)-1)` -/
def SI5351_MULTISYNTH_P1_MAX : Nat := (1 <<< 18) - 1
/-- Macro `#define SI5351_MULTISYNTH_P2_MAX ((1<<20)-1)` -/
def SI5351_MULTISYNTH_P2_MAX : Nat := (1 <<< 20) - 1
/-- Macro `#define SI5351_MULTISYNTH_P3_MAX ((1<<20)-1)` -/
def SI5351_MULTISYNTH_P3_MAX : Nat := (1 <<< 20) - 1

/-- Macro `#define SI5351_CLK_POWERDOWN (1<<7)` -/
def SI5351_CLK_POWERDOWN : Nat := 1 <<< 7
/-- Macro `#define SI5351_CLK_INTEGER_MODE (1<<6)` -/
def SI5351_CLK_INTEGER_MODE : Nat := 1 <<< 6
/-- Macro `#define SI5351_CLK_PLL_SELECT (1<<5)` -/
def SI5351_CLK_PLL_SELECT : Nat := 1 <<< 5
/-- Macro `#define SI5351_CLK_INVERT (1<<4)` -/
def SI5351_CLK_INVERT : Nat := 1 <<< 4
/-- Macro `#define SI5351_CLK_INPUT_MASK (3<<2)` -/
def SI5351_CLK_INPUT_MASK : Nat := 3 <<< 2
/-- Macro `#define SI5351_CLK_INPUT_XTAL (0<<2)` -/
def SI5351_CLK_INPUT_XTAL : Nat := 0 <<< 2
/-- Macro `#define SI5351_CLK_INPUT_CLKIN (1<<2)` -/
def SI5351_CLK_INPUT_CLKIN : Nat := 1 <<< 2
/-- Macro `#define SI5351_CLK_INPUT_MULTISYNTH_0_4 (2<<2)` -/
def SI5351_CLK_INPUT_MULTISYNTH_0_4 : Nat := 2 <<< 2
/-- Macro `#define SI5351_CLK_INPUT_MULTISYNTH_N (3<<2)` -/
def SI5351_CLK_INPUT_MULTISYNTH_N : Nat := 3 <<< 2
/-- Macro `#define SI5351_CLK_DRIVE_STRENGTH_MASK (3<<0)` -/
def SI5351_CLK_DRIVE_STRENGTH_MASK : Nat := 3 <<< 0
/-- Macro `#define SI5351_CLK_DRIVE_STRENGTH_2MA (0<<0)` -/
def SI5351_CLK_DRIVE_STRENGTH_2MA : Nat := 0 <<< 0
/-- Macro `#define SI5351_CLK_DRIVE_STRENGTH_4MA (1<<0)` -/
def SI5351_CLK_DRIVE_STRENGTH_4MA : Nat := 1 <<< 0
/-- Macro `#define SI5351_CLK_DRIVE_STRENGTH_6MA (2<<0)` -/
def SI5351_CLK_DRIVE_STRENGTH_6MA : Nat := 2 <<< 0
/-- Macro `#define SI5351_CLK_DRIVE_STRENGTH_8MA (3<<0)` -/
def SI5351_CLK_DRIVE_STRENGTH_8MA : Nat := 3 <<< 0

/-- Macro `#define SI5351_OUTPUT_CLK_DIV_1 0` -/
def SI5351_OUTPUT_CLK_DIV_1 : Nat := 0
/-- Macro `#define SI5351_OUTPUT_CLK_DIV_2 1` -/
def SI5351_OUTPUT_CLK_DIV_2 : Nat := 1
/-- Macro `#define SI5351_OUTPUT_CLK_DIV_4 2` -/
def SI5351_OUTPUT_CLK_DIV_4 : Nat := 2
/-- Macro `#define SI5351_OUTPUT_CLK_DIV_8 3` -/
def SI5351_OUTPUT_CLK_DIV_8 : Nat := 3
/-- Macro `#define SI5351_OUTPUT_CLK_DIV_16 4` -/
def SI5351_OUTPUT_CLK_DIV_16 : Nat := 4
/-- Macro `#define SI5351_OUTPUT_CLK_DIV_32 5` -/
def SI5351_OUTPUT_CLK_DIV_32 : Nat := 5
/-- Macro `#define SI5351_OUTPUT_CLK_DIV_64 6` -/
def SI5351_OUTPUT_CLK_DIV_64 : Nat := 6
/-- Macro `#define SI5351_OUTPUT_CLK_DIV_128 7` -/
def SI5351_OUTPUT_CLK_DIV_128 : Nat := 7

/-! ## Constants and state of `si5351mcu.h` -/

/-- Macro `#define SI_XTAL 27000000L` -/
def SI_XTAL : Nat := 27000000
/-- Macro `#define SICHANNELS 3` -/
@[reducible] def SICHANNELS : Nat := 3
/-- Macro `#define SIOUT_2mA 0` -/
def SIOUT_2mA : Nat := 0
/-- Macro `#define SIOUT_4mA 1` -/
def SIOUT_4mA : Nat := 1
/-- Macro `#define SIOUT_6mA 2` -/
def SIOUT_6mA : Nat := 2
/-- Macro `#define SIOUT_8mA 3` -/
def SIOUT_8mA : Nat := 3
/-- Macro `#define SICLK0_R 76    // 0b01001100` -/
def SICLK0_R : Nat := 76
/-- Macro `#define SICLK12_R 108  // 0b01101100` -/
def SICLK12_R : Nat := 108

/-- The `extern` globals of `si5351mcu.h`: `uint32_t base_xtal`,
`uint32_t int_xtal`, `uint8_t clkpower[SICHANNELS]`,
`uint16_t omsynth[SICHANNELS]`, `uint8_t o_Rdiv[SICHANNELS]` and
`bool clkOn[SICHANNELS]`.  Each array has exactly `SICHANNELS` cells. -/
structure Tracker where
  base_xtal : Nat
  int_xtal : Nat
  clkpower : Fin SICHANNELS → Nat
  omsynth : Fin SICHANNELS → Nat
  o_Rdiv : Fin SICHANNELS → Nat
  clkOn : Fin SICHANNELS → Bool

/-- A C array read `arr[i]` on an array of `n` cells.  An index outside the
array is undefined behaviour in C; the model reports it as `none`. -/
def arrayRead {α : Type} {n : Nat} (arr : Fin n → α) (i : Nat) : Option α :=
  if h : i < n then some (arr ⟨i, h⟩) else none

/-- The library defaults the header comment lists: crystal 27 MHz, lowest
output power (2 mA), all outputs off; no divider programmed yet. -/
def libDefaults : Tracker :=
  { base_xtal := SI_XTAL
    int_xtal := SI_XTAL
    clkpower := fun _ => SIOUT_2mA
    omsynth := fun _ => 0
    o_Rdiv := fun _ => 0
    clkOn := fun _ => false }

/-- Inline function `si5351mcu_isEnabled`:
`return channel < SICHANNELS && clkOn[channel] != 0;`
The `&&` short-circuits, so `clkOn[channel]` is read only after the bound
check succeeded.  `none` would mean an out-of-bounds read happened. -/
def si5351mcu_isEnabled (st : Tracker) (channel : Nat) : Option Bool :=
  if channel < SICHANNELS then
    (arrayRead st.clkOn channel).map (fun v => v != false)
  else
    some false

/-- Inline function `si5351mcu_getPower`:
`return channel < SICHANNELS ? clkpower[channel] : 0;`
`none` would mean an out-of-bounds read happened. -/
def si5351mcu_getPower (st : Tracker) (channel : Nat) : Option Nat :=
  if channel < SICHANNELS then arrayRead st.clkpower channel else some 0

/-- Inline function `si5351mcu_getXtalBase`: `return base_xtal;` -/
def si5351mcu_getXtalBase (st : Tracker) : Nat := st.base_xtal

/-- Inline function `si5351mcu_getXtalCurrent`: `return int_xtal;` -/
def si5351mcu_getXtalCurrent (st : Tracker) : Nat := st.int_xtal

/-- The two PLLs of the chip. -/
inductive PLLId where
  | A
  | B
  deriving DecidableEq, Repr

/-- The header comment of `si5351mcu.h`: "CLK0 will use PLLA, CLK1 will use
PLLB, CLK2 will use PLLB". -/
def pllFor (channel : Fin SICHANNELS) : PLLId :=
  if channel.val = 0 then PLLId.A else PLLId.B

/-- The control-register base value named after the channel: `SICLK0_R` for
CLK0 and `SICLK12_R` for CLK1 and CLK2. -/
def clkControlBase (channel : Fin SICHANNELS) : Nat :=
  if channel.val = 0 then SICLK0_R else SICLK12_R

/-- The PLL a control-register value selects: bit 5 (`SI5351_CLK_PLL_SELECT`)
clear is PLLA, set is PLLB. -/
def pllSelectedBy (ctrl : Nat) : PLLId :=
  if ctrl &&& SI5351_CLK_PLL_SELECT = 0 then PLLId.A else PLLId.B

/-- The output post-divider selected by a register code
`SI5351_OUTPUT_CLK_DIV_1` .. `SI5351_OUTPUT_CLK_DIV_128` (codes 0..7): the
code is the exponent of the power of two. -/
def outputDivider (code : Nat) : Nat := 2 ^ code

/-- The eight post-dividers 1, 2, 4, ..., 128 the header names, in the order
of their register codes. -/
def postDividers : List Nat :=
  [SI5351_OUTPUT_CLK_DIV_1, SI5351_OUTPUT_CLK_DIV_2, SI5351_OUTPUT_CLK_DIV_4,
   SI5351_OUTPUT_CLK_DIV_8, SI5351_OUTPUT_CLK_DIV_16, SI5351_OUTPUT_CLK_DIV_32,
   SI5351_OUTPUT_CLK_DIV_64, SI5351_OUTPUT_CLK_DIV_128].map outputDivider

/-- Modelled from the spec: the rational `a + b/c` of the data model
(section 3), used for the PLL feedback multiplier and the multisynth divider:
integer part `a`, fractional numerator `b`, denominator `c`. -/
structure Ratio where
  a : Nat
  b : Nat
  c : Nat
  deriving DecidableEq, Repr

/-- Modelled from the spec: the value `a + b/c` of a divider, as an exact
rational number. -/
def Ratio.value (q : Ratio) : ℚ := (q.a : ℚ) + (q.b : ℚ) / (q.c : ℚ)

/-! ## Register encoder -/

/-- Modelled from the spec: the Register Encoder (section 4.4), whose code
is not among the two headers.  `P1 = 128*a + floor(128*b/c) - 512`, over the
integers so that an underflow would show as a negative value. -/
def encodeP1 (a b c : Int) : Int := 128 * a + (128 * b) / c - 512

/-- Modelled from the spec: the Register Encoder (section 4.4), whose code
is not among the two headers.  `P2 = 128*b - c*floor(128*b/c)`. -/
def encodeP2 (b c : Int) : Int := 128 * b - c * ((128 * b) / c)

/-- Modelled from the spec: the Register Encoder (section 4.4), whose code
is not among the two headers.  `P3 = c`. -/
def encodeP3 (c : Int) : Int := c

/-- Modelled from the spec: the parameter triad the Register Encoder
(section 4.4) produces for the divider `a + b/c`. -/
def encode (a b c : Int) : Int × Int × Int :=
  (encodeP1 a b c, encodeP2 b c, encodeP3 c)

/-- Modelled from the spec: the decoding side of the round-trip property
(section 8).  The design names no decoder; this is the inverse the property
is checked against:
`c = P3`, `a = floor((P1 + 512)/128)`,
`b = (P2 + P3*((P1 + 512) mod 128))/128`. -/
def decode (p : Int × Int × Int) : Int × Int × Int :=
  ((p.1 + 512) / 128, (p.2.1 + p.2.2 * ((p.1 + 512) % 128)) / 128, p.2.2)

/-! ## Crystal reference -/

/-- Modelled from the spec: `si5351mcu_init(uint8_t, uint32_t)`, declared in
`si5351mcu.h` with its body elsewhere.  Initialisation sets the crystal base
(section 5), the working value starts equal to it (no correction yet), and
all outputs are off afterwards (header comment "After the init all outputs
are off").  The frequency is a `uint32_t`.  The design's `init(crystalHz)`
has no counterpart of the leading `uint8_t` argument, and the crystal fields
do not depend on it. -/
def si5351mcu_init (st : Tracker) (_opt : Nat) (xtal : Nat) : Tracker :=
  { st with
    base_xtal := xtal % 2 ^ 32
    int_xtal := xtal % 2 ^ 32
    clkOn := fun _ => false }

/-- Modelled from the spec: `si5351mcu_correction`, declared in
`si5351mcu.h` with its body elsewhere.  "corrected frequency = base +
correction" (section 3); the sum is stored in the `uint32_t int_xtal`, the
base is left alone. -/
def si5351mcu_correction (st : Tracker) (diff : Int) : Tracker :=
  { st with int_xtal := (((st.base_xtal : Int) + diff) % 2 ^ 32).toNat }

/-! ## Frequency planner -/

/-- Modelled from the spec: the planning errors of the taxonomy in section 7,
with the solver's `OutOfRange` of section 4.1. -/
inductive PlanError where
  | FrequencyOutOfRange
  | UnsupportedConfiguration
  | NoValidDivider
  | OutOfRange
  deriving DecidableEq, Repr

/-- Modelled from the spec: the Rational Divider Solver (section 4.1), whose
code is not among the two headers.  The target ratio is the exact rational
`num/den` (integer hertz values, no floats).  The integer part must lie in
`[minA, maxA]`, otherwise no `a` in range can approximate the target and the
result is `OutOfRange`.  A ratio that is exactly an integer gives
`b = 0, c = 1` (integer mode).  Otherwise the denominator is made as large
as the fixed-point limit allows, `c = fracDenomMax`, and, to minimize the
residual error, `b` is the numerator nearest to the fractional part, kept
below `c`. -/
def solve (num den minA maxA fracDenomMax : Nat) : Except PlanError Ratio :=
  if den = 0 ∨ num / den < minA ∨ maxA < num / den then
    Except.error PlanError.OutOfRange
  else if num % den = 0 then
    Except.ok ⟨num / den, 0, 1⟩
  else
    Except.ok ⟨num / den,
      min ((2 * (num % den) * fracDenomMax + den) / (2 * den)) (fracDenomMax - 1),
      fracDenomMax⟩

/-- Modelled from the spec: a frequency plan, the result of section 4.3: the
PLL feedback multiplier, the multisynth divider of the channel (its integer
part is the `d` of section 4.3) and the output post-divider Rdiv. -/
structure Plan where
  pll : Ratio
  ms : Ratio
  rdiv : Nat
  deriving DecidableEq, Repr

/-- Modelled from the spec: the VCO frequency `crystalHz * (a + b/c)` of a
PLL multiplier (section 4.3 step 3). -/
def vcoHz (xtal : Nat) (q : Ratio) : ℚ := (xtal : ℚ) * q.value

/-- Modelled from the spec: the VCO band check of section 4.3 step 3, with
the limits of `si5351.h`: `SI5351_PLL_VCO_MIN <= VCO <= SI5351_PLL_VCO_MAX`. -/
def vcoInRange (xtal : Nat) (q : Ratio) : Bool :=
  decide ((SI5351_PLL_VCO_MIN : ℚ) ≤ vcoHz xtal q ∧ vcoHz xtal q ≤ (SI5351_PLL_VCO_MAX : ℚ))

/-- Modelled from the spec: the output frequency of a plan, the VCO divided
by the multisynth divider and by the post-divider. -/
def Plan.outHz (xtal : Nat) (p : Plan) : ℚ :=
  vcoHz xtal p.pll / (p.ms.value * (p.rdiv : ℚ))

/-- Modelled from the spec: the frequency error of a plan against the
target, in hertz (section 4.3 step 3). -/
def Plan.err (xtal targetHz : Nat) (p : Plan) : ℚ := |p.outHz xtal - (targetHz : ℚ)|

/-- Modelled from the spec: the selection order of section 4.3 step 3.
`better p q` holds when `p` is strictly preferred to `q`: smaller frequency
error; on equal error an integer-mode multisynth (`b = 0`) is preferred; then
the larger multisynth integer divider. -/
def better (xtal targetHz : Nat) (p q : Plan) : Bool :=
  decide (p.err xtal targetHz < q.err xtal targetHz) ||
  (decide (p.err xtal targetHz = q.err xtal targetHz) &&
    ((decide (p.ms.b = 0) && !decide (q.ms.b = 0)) ||
     (decide ((p.ms.b = 0) ↔ (q.ms.b = 0)) && decide (q.ms.a < p.ms.a))))

/-- Modelled from the spec: "among all valid pairs, select the one
minimizing frequency error" with the tie-breaks of `better`. -/
def selectBest (xtal targetHz : Nat) : List Plan → Option Plan
  | [] => none
  | p :: ps =>
    match selectBest xtal targetHz ps with
    | none => some p
    | some q => if better xtal targetHz q p then some q else some p

/-- Modelled from the spec: the candidate multisynth integer dividers of
section 4.3 step 3: exactly 4 (divide-by-4 fast path) when the target is
above `SI5351_MULTISYNTH_DIVBY4_FREQ`, otherwise
`SI5351_MULTISYNTH_A_MIN .. SI5351_MULTISYNTH_A_MAX`. -/
def dividerCandidates (targetHz : Nat) : List Nat :=
  if SI5351_MULTISYNTH_DIVBY4_FREQ < targetHz then [4]
  else List.range' SI5351_MULTISYNTH_A_MIN
    (SI5351_MULTISYNTH_A_MAX - SI5351_MULTISYNTH_A_MIN + 1)

/-- Modelled from the spec: the plan a candidate pair (divider `d`,
post-divider `r`) leads to.  The VCO has to be `targetHz * d * r`; the solver
gives the PLL multiplier for the ratio VCO / crystal, and the candidate is
valid when the resulting VCO lies in the band. -/
def candidatePlan (xtal targetHz d r : Nat) : Option Plan :=
  match solve (targetHz * d * r) xtal SI5351_PLL_A_MIN SI5351_PLL_A_MAX SI5351_PLL_C_MAX with
  | Except.ok q => if vcoInRange xtal q then some ⟨q, ⟨d, 0, 1⟩, r⟩ else none
  | Except.error _ => none

/-- Modelled from the spec: all valid candidates of the owner search. -/
def ownerCandidates (xtal targetHz : Nat) : List Plan :=
  (dividerCandidates targetHz).flatMap fun d =>
    postDividers.filterMap fun r => candidatePlan xtal targetHz d r

/-- Modelled from the spec: section 4.3 step 3, the plan for a channel that
owns its PLL.  `NoValidDivider` when the search space holds no valid
candidate. -/
def planOwner (xtal targetHz : Nat) : Except PlanError Plan :=
  match selectBest xtal targetHz (ownerCandidates xtal targetHz) with
  | some p => Except.ok p
  | none => Except.error PlanError.NoValidDivider

/-- Modelled from the spec: section 4.3 step 4, the plan for a channel that
does not own its PLL.  The PLL multiplier `q` stays as it is; the multisynth
divider is solved against the fixed VCO `xtal * (a + b/c)`, for the first
post-divider that admits one; `UnsupportedConfiguration` when none does. -/
def planShared (xtal targetHz : Nat) (q : Ratio) : Except PlanError Plan :=
  match postDividers.findSome? fun r =>
      match solve (xtal * (q.a * q.c + q.b)) (q.c * targetHz * r)
          SI5351_MULTISYNTH_A_MIN SI5351_MULTISYNTH_A_MAX SI5351_MULTISYNTH_C_MAX with
      | Except.ok m => some (Plan.mk q m r)
      | Except.error _ => none with
  | some p => Except.ok p
  | none => Except.error PlanError.UnsupportedConfiguration

/-- Modelled from the spec: the planner's state (sections 3 and 4.5): the
tracker globals of the header and, per PLL, the feedback multiplier
programmed last (none before the first tuning). -/
structure Device where
  tracker : Tracker
  pllRatio : PLLId → Option Ratio

/-- Modelled from the spec: the register writes a planning call hands to the
transport (sections 5 and 6), at the level
of parameter blocks: a PLL parameter block, a channel's multisynth block
with its post-divider, the PLL soft-reset register, a channel's control
register. -/
inductive RegWrite where
  | pllParams (pll : PLLId) (triad : Int × Int × Int)
  | msParams (channel : Fin SICHANNELS) (triad : Int × Int × Int) (rdiv : Nat)
  | pllReset (pll : PLLId)
  | clkControl (channel : Fin SICHANNELS)
  deriving DecidableEq, Repr

/-- Modelled from the spec: the device before any frequency was set:
library defaults in the tracker, no PLL tuned. -/
def powerOnDevice : Device :=
  { tracker := libDefaults
    pllRatio := fun _ => none }

/-- Modelled from the spec: whether a write goes to the PLL soft-reset
register. -/
def RegWrite.isReset : RegWrite → Bool
  | RegWrite.pllReset _ => true
  | _ => false

/-- Modelled from the spec: the number of PLL soft resets among the writes
of one call. -/
def resetCount (ws : List RegWrite) : Nat := (ws.filter RegWrite.isReset).length

/-- Modelled from the spec: section 4.3 steps 2 to 4, the plan for a
request.  `isOwner` is the configuration constant of section 4.2.  The owner
of a PLL retunes it against the corrected crystal `int_xtal`; any other
channel keeps the PLL as programmed and fails with
`UnsupportedConfiguration` when the PLL was never tuned. -/
def planFor (isOwner : Fin SICHANNELS → Bool) (dev : Device)
    (channel : Fin SICHANNELS) (targetHz : Nat) : Except PlanError Plan :=
  if isOwner channel then planOwner dev.tracker.int_xtal targetHz
  else
    match dev.pllRatio (pllFor channel) with
    | some q => planShared dev.tracker.int_xtal targetHz q
    | none => Except.error PlanError.UnsupportedConfiguration

/-- Modelled from the spec: section 4.3 step 5, the reset decision.  A reset
is required when the new multisynth integer divider or the new post-divider
differs from the value stored for the channel in `omsynth` / `o_Rdiv`. -/
def resetNeeded (dev : Device) (channel : Fin SICHANNELS) (p : Plan) : Bool :=
  decide (dev.tracker.omsynth channel ≠ p.ms.a ∨ dev.tracker.o_Rdiv channel ≠ p.rdiv)

/-- Modelled from the spec: section 4.3 steps 5 and 6 with the write order
of section 5: PLL parameters (owner only), multisynth parameters, the reset
register when `resetNeeded`, the control register.  The tracker then stores
the new divider and post-divider in `omsynth[channel]` and
`o_Rdiv[channel]`; an owner's PLL takes the new multiplier. -/
def applyPlan (isOwner : Fin SICHANNELS → Bool) (dev : Device)
    (channel : Fin SICHANNELS) (p : Plan) : Device × List RegWrite :=
  ({ tracker :=
      { dev.tracker with
        omsynth := Function.update dev.tracker.omsynth channel p.ms.a
        o_Rdiv := Function.update dev.tracker.o_Rdiv channel p.rdiv }
     pllRatio :=
      if isOwner channel then
        Function.update dev.pllRatio (pllFor channel) (some p.pll)
      else dev.pllRatio },
   (if isOwner channel then
      [RegWrite.pllParams (pllFor channel) (encode p.pll.a p.pll.b p.pll.c)]
    else []) ++
   [RegWrite.msParams channel (encode p.ms.a p.ms.b p.ms.c) p.rdiv] ++
   (if resetNeeded dev channel p then [RegWrite.pllReset (pllFor channel)] else []) ++
   [RegWrite.clkControl channel])

/-- Modelled from the spec: `si5351mcu_setFreq` (the design's
`setFrequency(channel, hz)`), declared in `si5351mcu.h` with its body
elsewhere; section 4.3.  Step 1 rejects a target outside
`[SI5351_CLKOUT_MIN_FREQ, SI5351_CLKOUT_MAX_FREQ]`; a planning failure is
passed on and leaves the state alone; otherwise the plan is applied. -/
def si5351mcu_setFreq (isOwner : Fin SICHANNELS → Bool) (dev : Device)
    (channel : Fin SICHANNELS) (targetHz : Nat) :
    Except PlanError (Device × List RegWrite) :=
  if targetHz < SI5351_CLKOUT_MIN_FREQ ∨ SI5351_CLKOUT_MAX_FREQ < targetHz then
    Except.error PlanError.FrequencyOutOfRange
  else
    match planFor isOwner dev channel targetHz with
    | Except.error e => Except.error e
    | Except.ok p => Except.ok (applyPlan isOwner dev channel p)

/-- Modelled from the spec: the number of PLL soft resets a call issued; a
failed call writes nothing (errors are reported before any write). -/
def resetsOf : Except PlanError (Device × List RegWrite) → Nat
  | Except.ok (_, ws) => resetCount ws
  | Except.error _ => 0

/-! ## Theorems -/

/-- The quotient `floor(128*b/c)` of a proper fraction lies in `0..127`, and
the remainder `128*b - c*floor(128*b/c)` lies in `0..c-1`. -/
theorem frac128_bounds (b c : Int) (hb : 0 ≤ b) (hbc : b < c) :
    0 ≤ (128 * b) / c ∧ (128 * b) / c ≤ 127 ∧
    0 ≤ 128 * b - c * ((128 * b) / c) ∧ 128 * b - c * ((128 * b) / c) < c := by
  have hc : 0 < c := lt_of_le_of_lt hb hbc
  have h0 : 0 ≤ (128 * b) / c := Int.ediv_nonneg (by omega) hc.le
  have hlt : (128 * b) / c < 128 := Int.ediv_lt_of_lt_mul hc (by nlinarith)
  have hmod : 128 * b - c * ((128 * b) / c) = (128 * b) % c := by
    have := Int.emod_add_ediv (128 * b) c
    omega
  have hm0 : 0 ≤ (128 * b) % c := Int.emod_nonneg _ hc.ne.symm
  have hm1 : (128 * b) % c < c := Int.emod_lt_of_pos _ hc
  exact ⟨h0, by omega, by omega, by omega⟩

/-- C7: the channel-to-PLL mapping documented in the header (CLK0 on PLLA,
CLK1 and CLK2 on PLLB) is the one encoded by the control-register base
values: `SICLK0_R` = 76 has the PLL-select bit clear, `SICLK12_R` = 108 has
it set, the two differ in exactly that bit, and both have power-down clear,
integer mode set, input source `SI5351_CLK_INPUT_MULTISYNTH_N` and drive
strength 0 (2 mA). -/
theorem C7_control_base_encodes_pll_mapping :
    (pllFor 0 = PLLId.A ∧ pllFor 1 = PLLId.B ∧ pllFor 2 = PLLId.B) ∧
    (∀ ch : Fin SICHANNELS, pllSelectedBy (clkControlBase ch) = pllFor ch) ∧
    SICLK0_R = 76 ∧ SICLK12_R = 108 ∧
    SICLK0_R &&& SI5351_CLK_PLL_SELECT = 0 ∧
    SICLK12_R &&& SI5351_CLK_PLL_SELECT = SI5351_CLK_PLL_SELECT ∧
    SI5351_CLK_PLL_SELECT = 2 ^ 5 ∧
    SICLK0_R ^^^ SICLK12_R = SI5351_CLK_PLL_SELECT ∧
    (∀ i : Nat, SICLK0_R.testBit i ≠ SICLK12_R.testBit i ↔ i = 5) ∧
    (∀ v ∈ [SICLK0_R, SICLK12_R],
      v &&& SI5351_CLK_POWERDOWN = 0 ∧ v.testBit 7 = false ∧
      v &&& SI5351_CLK_INTEGER_MODE = SI5351_CLK_INTEGER_MODE ∧ v.testBit 6 = true ∧
      v &&& SI5351_CLK_INPUT_MASK = SI5351_CLK_INPUT_MULTISYNTH_N ∧
      v &&& SI5351_CLK_DRIVE_STRENGTH_MASK = SI5351_CLK_DRIVE_STRENGTH_2MA ∧
      v &&& SI5351_CLK_DRIVE_STRENGTH_MASK = SIOUT_2mA) := by
  refine ⟨by decide, by decide, rfl, rfl, by decide, by decide, by decide, by decide, ?_,
    by decide⟩
  intro i
  have h : ∀ j : Nat, (SICLK0_R ^^^ SICLK12_R).testBit j = decide (j = 5) := by
    intro j
    have hx : SICLK0_R ^^^ SICLK12_R = 2 ^ 5 := by decide
    rw [hx, Nat.testBit_two_pow]
    by_cases hj : j = 5
    · simp [hj]
    · have : ¬ (5 = j) := fun e => hj e.symm
      simp [hj, this]
  have hi := h i
  rw [Nat.testBit_xor] at hi
  by_cases h5 : i = 5
  · subst h5
    simp
    decide
  · simp only [h5, decide_False] at hi
    simp only [h5, iff_false, ne_eq, not_not]
    cases hA : SICLK0_R.testBit i <;> cases hB : SICLK12_R.testBit i <;> simp_all

/-- C8: for every channel value (8-bit values included) and every tracker
state, `si5351mcu_isEnabled` completes without an out-of-bounds read and
returns true exactly when `channel < 3` and `clkOn[channel]` is set; for a
channel of 3 or more it returns false. -/
theorem C8_isEnabled_spec (st : Tracker) (channel : Nat) :
    ∃ r : Bool, si5351mcu_isEnabled st channel = some r ∧
      (r = true ↔ ∃ h : channel < SICHANNELS, st.clkOn ⟨channel, h⟩ = true) ∧
      (SICHANNELS ≤ channel → r = false) := by
  unfold si5351mcu_isEnabled arrayRead
  by_cases h : channel < SICHANNELS
  · refine ⟨st.clkOn ⟨channel, h⟩, by simp [h], ?_, fun h3 => absurd h (by omega)⟩
    exact ⟨fun e => ⟨h, e⟩, fun ⟨_, e⟩ => e⟩
  · refine ⟨false, by simp [h], ?_, fun _ => rfl⟩
    exact ⟨fun e => Bool.noConfusion e, fun hex => absurd hex.1 h⟩

/-- C9: for every channel value (8-bit values included) and every tracker
state, `si5351mcu_getPower` completes without an out-of-bounds read, returns
`clkpower[channel]` when `channel < 3` and 0 otherwise; that 0 is the value
of `SIOUT_2mA`, so an invalid channel and a channel set to 2 mA give the same
result. -/
theorem C9_getPower_spec (st : Tracker) (channel : Nat) :
    (∀ h : channel < SICHANNELS,
      si5351mcu_getPower st channel = some (st.clkpower ⟨channel, h⟩)) ∧
    (SICHANNELS ≤ channel → si5351mcu_getPower st channel = some 0) ∧
    (SICHANNELS ≤ channel → si5351mcu_getPower st channel = some SIOUT_2mA) ∧
    (∀ ok : Fin SICHANNELS, st.clkpower ok = SIOUT_2mA → SICHANNELS ≤ channel →
      si5351mcu_getPower st channel = si5351mcu_getPower st ok.val) := by
  unfold si5351mcu_getPower arrayRead
  refine ⟨fun h => by simp [h], fun h => ?_, fun h => ?_, fun ok hok h => ?_⟩
  · have : ¬ channel < SICHANNELS := by omega
    simp [this]
  · have : ¬ channel < SICHANNELS := by omega
    simp [this, SIOUT_2mA]
  · have : ¬ channel < SICHANNELS := by omega
    simp [this, ok.isLt, hok, SIOUT_2mA]

/-- C2: encoding a divider `a + b/c` (with `0 <= b < c`, so in particular on
the documented ranges a in 15..90 or 4..1800 and `c <= 1048575`) as the
triad P1, P2, P3 and decoding it again gives back `(a, b, c)`, and the
encoding is injective on these dividers. -/
theorem C2_encode_decode_roundtrip (a b c : Int) (hb : 0 ≤ b) (hbc : b < c) :
    decode (encode a b c) = (a, b, c) ∧
    ∀ a2 b2 c2 : Int, 0 ≤ b2 → b2 < c2 → encode a2 b2 c2 = encode a b c →
      (a2, b2, c2) = (a, b, c) := by
  have key : ∀ x y z : Int, 0 ≤ y → y < z → decode (encode x y z) = (x, y, z) := by
    intro x y z hy hyz
    obtain ⟨h0, h1, _, _⟩ := frac128_bounds y z hy hyz
    simp only [decode, encode, encodeP1, encodeP2, encodeP3]
    generalize (128 * y) / z = f at h0 h1
    have e1 : (128 * x + f - 512 + 512) / 128 = x := by omega
    have e2 : (128 * x + f - 512 + 512) % 128 = f := by omega
    rw [e1, e2]
    have e3 : 128 * y - z * f + z * f = 128 * y := by ring
    rw [e3]
    have e4 : (128 * y) / 128 = y := by omega
    rw [e4]
  refine ⟨key a b c hb hbc, ?_⟩
  intro a2 b2 c2 hb2 hbc2 he
  have h1 := key a2 b2 c2 hb2 hbc2
  rw [he, key a b c hb hbc] at h1
  exact h1.symm

/-- Witness for C2 at the PLL divider 15 + 1/1048575. -/
theorem C2_encode_decode_roundtrip_witness :
    decode (encode 15 1 1048575) = (15, 1, 1048575) :=
  (C2_encode_decode_roundtrip 15 1 1048575 (by decide) (by decide)).1

/-- C10: for `4 <= a <= 1800` and `0 <= b < c <= 1048575` the encoded
parameters fit their register fields without underflow:
`0 <= P1 <= SI5351_MULTISYNTH_P1_MAX`, `0 <= P2 < c <= SI5351_MULTISYNTH_P2_MAX`
and `1 <= P3 <= SI5351_MULTISYNTH_P3_MAX`. -/
theorem C10_encoded_parameters_fit (a b c : Int)
    (ha : 4 ≤ a) (ha2 : a ≤ (SI5351_MULTISYNTH_A_MAX : Int))
    (hb : 0 ≤ b) (hbc : b < c) (hc : c ≤ (SI5351_MULTISYNTH_C_MAX : Int)) :
    (0 ≤ encodeP1 a b c ∧ encodeP1 a b c ≤ (SI5351_MULTISYNTH_P1_MAX : Int)) ∧
    (0 ≤ encodeP2 b c ∧ encodeP2 b c < c ∧ c ≤ (SI5351_MULTISYNTH_P2_MAX : Int)) ∧
    (1 ≤ encodeP3 c ∧ encodeP3 c ≤ (SI5351_MULTISYNTH_P3_MAX : Int)) := by
  obtain ⟨h0, h1, h2, h3⟩ := frac128_bounds b c hb hbc
  have hA : (SI5351_MULTISYNTH_A_MAX : Int) = 1800 := by decide
  have hC : (SI5351_MULTISYNTH_C_MAX : Int) = 1048575 := by decide
  have hP1 : (SI5351_MULTISYNTH_P1_MAX : Int) = 262143 := by decide
  have hP2 : (SI5351_MULTISYNTH_P2_MAX : Int) = 1048575 := by decide
  have hP3 : (SI5351_MULTISYNTH_P3_MAX : Int) = 1048575 := by decide
  rw [hA] at ha2
  rw [hC] at hc
  rw [hP1, hP2, hP3]
  simp only [encodeP1, encodeP2, encodeP3]
  refine ⟨⟨by omega, by omega⟩, ⟨h2, h3, hc⟩, ⟨by omega, hc⟩⟩

/-- Witness for C10 at the largest multisynth divider 1800 + 1048574/1048575. -/
theorem C10_encoded_parameters_fit_witness :
    (0 ≤ encodeP1 1800 1048574 1048575 ∧
      encodeP1 1800 1048574 1048575 ≤ (SI5351_MULTISYNTH_P1_MAX : Int)) ∧
    (0 ≤ encodeP2 1048574 1048575 ∧ encodeP2 1048574 1048575 < 1048575 ∧
      (1048575 : Int) ≤ (SI5351_MULTISYNTH_P2_MAX : Int)) ∧
    (1 ≤ encodeP3 1048575 ∧ encodeP3 1048575 ≤ (SI5351_MULTISYNTH_P3_MAX : Int)) :=
  C10_encoded_parameters_fit 1800 1048574 1048575 (by decide) (by decide) (by decide)
    (by decide) (by decide)

/-- C5: at the top frequency 225,000,000 Hz (`SI5351_MULTISYNTH_MAX_FREQ`)
the only multisynth divider `a + b/c` with `a >= 4`, `0 <= b < c` and
post-divider `r >= 1` that keeps the VCO `225,000,000 * (a + b/c) * r` inside
`[SI5351_PLL_VCO_MIN, SI5351_PLL_VCO_MAX]` is `a = 4`, `b = 0`, `r = 1`, and
the VCO is then exactly `SI5351_PLL_VCO_MAX = 4 * SI5351_MULTISYNTH_MAX_FREQ`. -/
theorem C5_top_frequency_forces_divide_by_4 (q : Ratio) (r : Nat)
    (ha : 4 ≤ q.a) (hbc : q.b < q.c) (hr : 1 ≤ r)
    (_hlo : (SI5351_PLL_VCO_MIN : ℚ) ≤ (SI5351_MULTISYNTH_MAX_FREQ : ℚ) * q.value * r)
    (hhi : (SI5351_MULTISYNTH_MAX_FREQ : ℚ) * q.value * r ≤ (SI5351_PLL_VCO_MAX : ℚ)) :
    q.a = 4 ∧ q.b = 0 ∧ r = 1 ∧
    (SI5351_MULTISYNTH_MAX_FREQ : ℚ) * q.value * r = (SI5351_PLL_VCO_MAX : ℚ) ∧
    SI5351_PLL_VCO_MAX = 4 * SI5351_MULTISYNTH_MAX_FREQ ∧
    SI5351_PLL_VCO_MAX = 900000000 := by
  have hM : (SI5351_MULTISYNTH_MAX_FREQ : ℚ) = 225000000 := by
    simp [SI5351_MULTISYNTH_MAX_FREQ]
  have hV : (SI5351_PLL_VCO_MAX : ℚ) = 900000000 := by simp [SI5351_PLL_VCO_MAX]
  rw [hM, hV] at hhi
  have hc : (0 : ℚ) < (q.c : ℚ) := by
    have : 0 < q.c := by omega
    exact_mod_cast this
  have hy : (0 : ℚ) ≤ (q.b : ℚ) / (q.c : ℚ) := by positivity
  have hx : (4 : ℚ) ≤ (q.a : ℚ) := by exact_mod_cast ha
  have hz : (1 : ℚ) ≤ (r : ℚ) := by exact_mod_cast hr
  unfold Ratio.value at hhi
  generalize hyd : (q.b : ℚ) / (q.c : ℚ) = y at hy hhi
  have hxz : ((q.a : ℚ) + y) * r ≤ 4 := by linarith
  have hz1 : (r : ℚ) = 1 := by nlinarith
  rw [hz1] at hxz
  have hx4 : (q.a : ℚ) = 4 := by linarith
  have hy0 : y = 0 := by linarith
  have hb0 : (q.b : ℚ) = 0 := by
    rw [hy0] at hyd
    have := div_eq_zero_iff.mp hyd
    rcases this with h | h
    · exact h
    · exact absurd h hc.ne.symm
  have hA : q.a = 4 := by exact_mod_cast hx4
  have hB : q.b = 0 := by exact_mod_cast hb0
  have hR : r = 1 := by exact_mod_cast hz1
  refine ⟨hA, hB, hR, ?_, by decide, rfl⟩
  rw [hM, hV]
  unfold Ratio.value
  rw [hyd, hy0, hx4, hz1]
  norm_num

/-- Witness for C5: the divide-by-4 divider 4 + 0/1 with post-divider 1 meets
the hypotheses, so it is the one solution. -/
theorem C5_top_frequency_forces_divide_by_4_witness :
    (Ratio.mk 4 0 1).a = 4 ∧ (Ratio.mk 4 0 1).b = 0 ∧ (1 : Nat) = 1 ∧
    (SI5351_MULTISYNTH_MAX_FREQ : ℚ) * (Ratio.mk 4 0 1).value * (1 : Nat)
      = (SI5351_PLL_VCO_MAX : ℚ) ∧
    SI5351_PLL_VCO_MAX = 4 * SI5351_MULTISYNTH_MAX_FREQ ∧
    SI5351_PLL_VCO_MAX = 900000000 :=
  C5_top_frequency_forces_divide_by_4 (Ratio.mk 4 0 1) 1 (by decide) (by decide) (by decide)
    (by norm_num [Ratio.value, SI5351_PLL_VCO_MIN, SI5351_MULTISYNTH_MAX_FREQ])
    (by norm_num [Ratio.value, SI5351_PLL_VCO_MAX, SI5351_MULTISYNTH_MAX_FREQ])

/-- C6: after `init` with crystal base `X` and then `correction(delta)`, for
a signed 32-bit `delta` with `0 <= X + delta < 2^32`, `getXtalBase` returns
`X` and `getXtalCurrent` returns `X + delta`. -/
theorem C6_corrected_crystal_is_base_plus_correction (st : Tracker) (opt X : Nat)
    (delta : Int)
    (hX : X < 2 ^ 32) (_hd : -(2 : Int) ^ 31 ≤ delta ∧ delta < (2 : Int) ^ 31)
    (h0 : 0 ≤ (X : Int) + delta) (h1 : (X : Int) + delta < 2 ^ 32) :
    si5351mcu_getXtalBase (si5351mcu_correction (si5351mcu_init st opt X) delta) = X ∧
    (si5351mcu_getXtalCurrent (si5351mcu_correction (si5351mcu_init st opt X) delta) : Int)
      = (X : Int) + delta := by
  have hXm : X % 2 ^ 32 = X := Nat.mod_eq_of_lt hX
  simp only [si5351mcu_getXtalBase, si5351mcu_getXtalCurrent, si5351mcu_correction,
    si5351mcu_init, hXm]
  refine ⟨trivial, ?_⟩
  rw [Int.emod_eq_of_lt h0 h1]
  exact Int.toNat_of_nonneg h0

/-- Witness for C6: a 25,000,000 Hz crystal with correction +1000 gives the
reference 25,001,000 Hz, the base staying at 25,000,000. -/
theorem C6_corrected_crystal_witness :
    si5351mcu_getXtalBase
        (si5351mcu_correction (si5351mcu_init libDefaults 0 25000000) 1000) = 25000000 ∧
    (si5351mcu_getXtalCurrent
        (si5351mcu_correction (si5351mcu_init libDefaults 0 25000000) 1000) : Int)
      = 25001000 :=
  C6_corrected_crystal_is_base_plus_correction libDefaults 0 25000000 1000 (by decide)
    ⟨by decide, by decide⟩ (by decide) (by decide)

/-! ### Selection among candidates -/

/-- A strictly preferred plan has no larger frequency error. -/
theorem better_err_le (xtal f : Nat) (p q : Plan) (h : better xtal f p q = true) :
    p.err xtal f ≤ q.err xtal f := by
  unfold better at h
  rw [Bool.or_eq_true] at h
  rcases h with h | h
  · exact le_of_lt (of_decide_eq_true h)
  · rw [Bool.and_eq_true] at h
    exact le_of_eq (of_decide_eq_true h.1)

/-- A plan that is not strictly preferred has no smaller frequency error. -/
theorem not_better_err_le (xtal f : Nat) (p q : Plan) (h : better xtal f p q = false) :
    q.err xtal f ≤ p.err xtal f := by
  unfold better at h
  rw [Bool.or_eq_false_iff] at h
  exact not_lt.mp (of_decide_eq_false h.1)

/-- The selected plan is one of the candidates. -/
theorem selectBest_mem (xtal f : Nat) :
    ∀ (l : List Plan) (p : Plan), selectBest xtal f l = some p → p ∈ l
  | [], p, h => by simp [selectBest] at h
  | x :: xs, p, h => by
    unfold selectBest at h
    cases hs : selectBest xtal f xs with
    | none =>
      rw [hs] at h
      simp only [Option.some.injEq] at h
      rw [← h]
      exact List.mem_cons_self x xs
    | some q =>
      rw [hs] at h
      simp only at h
      by_cases hb : better xtal f q x = true
      · rw [if_pos hb, Option.some.injEq] at h
        rw [← h]
        exact List.mem_cons_of_mem x (selectBest_mem xtal f xs q hs)
      · rw [if_neg hb, Option.some.injEq] at h
        rw [← h]
        exact List.mem_cons_self x xs

/-- A non-empty candidate list always yields a selection. -/
theorem selectBest_isSome (xtal f : Nat) (l : List Plan) (x : Plan) (hx : x ∈ l) :
    ∃ p, selectBest xtal f l = some p := by
  cases l with
  | nil => simp at hx
  | cons y ys =>
    unfold selectBest
    cases hs : selectBest xtal f ys with
    | none => exact ⟨y, rfl⟩
    | some q =>
      by_cases hb : better xtal f q y = true
      · exact ⟨q, by simp [hb]⟩
      · exact ⟨y, by simp [hb]⟩

/-- The selected plan has the least frequency error of all candidates. -/
theorem selectBest_le (xtal f : Nat) :
    ∀ (l : List Plan) (p : Plan), selectBest xtal f l = some p →
      ∀ q ∈ l, p.err xtal f ≤ q.err xtal f
  | [], p, h => by simp [selectBest] at h
  | x :: xs, p, h => by
    intro q hq
    unfold selectBest at h
    cases hs : selectBest xtal f xs with
    | none =>
      rw [hs] at h
      simp only [Option.some.injEq] at h
      have hnil : xs = [] := by
        cases xs with
        | nil => rfl
        | cons y ys =>
          obtain ⟨r, hr⟩ := selectBest_isSome xtal f (y :: ys) y (List.mem_cons_self y ys)
          rw [hr] at hs
          exact Option.noConfusion hs
      rw [hnil] at hq
      rw [List.mem_singleton] at hq
      rw [hq, h]
    | some m =>
      rw [hs] at h
      simp only at h
      have ih := selectBest_le xtal f xs m hs
      by_cases hb : better xtal f m x = true
      · rw [if_pos hb, Option.some.injEq] at h
        rw [← h]
        rcases List.mem_cons.mp hq with e | e
        · rw [e]
          exact better_err_le xtal f m x hb
        · exact ih q e
      · rw [if_neg hb, Option.some.injEq] at h
        rw [← h]
        have hb2 : better xtal f m x = false := by
          cases hv : better xtal f m x
          · rfl
          · exact absurd hv hb
        rcases List.mem_cons.mp hq with e | e
        · rw [e]
        · exact le_trans (not_better_err_le xtal f m x hb2) (ih q e)

/-! ### Candidates of the owner search -/

/-- Membership in the candidate dividers: 4 above 150 MHz, 6..1800 otherwise. -/
theorem mem_dividerCandidates (f d : Nat) :
    d ∈ dividerCandidates f ↔
      (SI5351_MULTISYNTH_DIVBY4_FREQ < f ∧ d = 4) ∨
      (f ≤ SI5351_MULTISYNTH_DIVBY4_FREQ ∧
        SI5351_MULTISYNTH_A_MIN ≤ d ∧ d ≤ SI5351_MULTISYNTH_A_MAX) := by
  unfold dividerCandidates
  by_cases h : SI5351_MULTISYNTH_DIVBY4_FREQ < f
  · rw [if_pos h]
    simp only [List.mem_singleton]
    constructor
    · intro e
      exact Or.inl ⟨h, e⟩
    · rintro (⟨_, e⟩ | ⟨h2, _⟩)
      · exact e
      · omega
  · rw [if_neg h, List.mem_range'_1]
    simp only [SI5351_MULTISYNTH_A_MIN, SI5351_MULTISYNTH_A_MAX]
    constructor
    · intro e
      exact Or.inr ⟨by omega, by omega, by omega⟩
    · rintro (⟨h2, _⟩ | ⟨_, h3, h4⟩)
      · exact absurd h2 h
      · omega

/-- Membership in the post-dividers 1, 2, 4, ..., 128. -/
theorem mem_postDividers (r : Nat) :
    r ∈ postDividers ↔
      r = 1 ∨ r = 2 ∨ r = 4 ∨ r = 8 ∨ r = 16 ∨ r = 32 ∨ r = 64 ∨ r = 128 := by
  simp [postDividers, outputDivider, SI5351_OUTPUT_CLK_DIV_1, SI5351_OUTPUT_CLK_DIV_2,
    SI5351_OUTPUT_CLK_DIV_4, SI5351_OUTPUT_CLK_DIV_8, SI5351_OUTPUT_CLK_DIV_16,
    SI5351_OUTPUT_CLK_DIV_32, SI5351_OUTPUT_CLK_DIV_64, SI5351_OUTPUT_CLK_DIV_128]

/-- The valid candidates are the plans of the candidate pairs. -/
theorem mem_ownerCandidates (xtal f : Nat) (p : Plan) :
    p ∈ ownerCandidates xtal f ↔
      ∃ d ∈ dividerCandidates f, ∃ r ∈ postDividers, candidatePlan xtal f d r = some p := by
  unfold ownerCandidates
  simp only [List.mem_flatMap, List.mem_filterMap]

/-- What a valid candidate looks like: the solver's multiplier, in band, with
the integer divider `d` and the post-divider `r`. -/
theorem candidatePlan_eq_some (xtal f d r : Nat) (p : Plan)
    (h : candidatePlan xtal f d r = some p) :
    solve (f * d * r) xtal SI5351_PLL_A_MIN SI5351_PLL_A_MAX SI5351_PLL_C_MAX
      = Except.ok p.pll ∧
    vcoInRange xtal p.pll = true ∧ p.ms = ⟨d, 0, 1⟩ ∧ p.rdiv = r := by
  unfold candidatePlan at h
  cases hs : solve (f * d * r) xtal SI5351_PLL_A_MIN SI5351_PLL_A_MAX SI5351_PLL_C_MAX with
  | error e =>
    rw [hs] at h
    exact Option.noConfusion h
  | ok q =>
    rw [hs] at h
    simp only at h
    by_cases hv : vcoInRange xtal q = true
    · rw [if_pos hv, Option.some.injEq] at h
      rw [← h]
      exact ⟨rfl, hv, rfl, rfl⟩
    · rw [if_neg hv] at h
      exact Option.noConfusion h

/-- The solver's results are well-formed: integer part in range, `b < c`,
`c` within the fixed-point limit. -/
theorem solve_wellformed (num den minA maxA cmax : Nat) (q : Ratio) (hc : 1 ≤ cmax)
    (h : solve num den minA maxA cmax = Except.ok q) :
    minA ≤ q.a ∧ q.a ≤ maxA ∧ q.b < q.c ∧ q.c ≤ cmax := by
  unfold solve at h
  by_cases hg : den = 0 ∨ num / den < minA ∨ maxA < num / den
  · rw [if_pos hg] at h
    exact Except.noConfusion h
  · rw [if_neg hg] at h
    by_cases hr : num % den = 0
    · rw [if_pos hr] at h
      injection h with h
      rw [← h]
      exact ⟨by simp only; omega, by simp only; omega, by simp only; omega, hc⟩
    · rw [if_neg hr] at h
      injection h with h
      rw [← h]
      refine ⟨by simp only; omega, by simp only; omega, ?_, le_refl _⟩
      simp only
      have := Nat.min_le_right ((2 * (num % den) * cmax + den) / (2 * den)) (cmax - 1)
      omega

/-- The VCO frequency as one fraction. -/
theorem vcoHz_eq_div (xtal : Nat) (q : Ratio) (hc : 0 < q.c) :
    vcoHz xtal q = ((xtal * (q.a * q.c + q.b) : Nat) : ℚ) / (q.c : ℚ) := by
  have hc2 : (q.c : ℚ) ≠ 0 := by exact_mod_cast hc.ne.symm
  unfold vcoHz Ratio.value
  push_cast
  field_simp

/-- The band check follows from its cross-multiplied form over the naturals. -/
theorem vcoInRange_of_nat (xtal : Nat) (q : Ratio) (hc : 0 < q.c)
    (hlo : SI5351_PLL_VCO_MIN * q.c ≤ xtal * (q.a * q.c + q.b))
    (hhi : xtal * (q.a * q.c + q.b) ≤ SI5351_PLL_VCO_MAX * q.c) :
    vcoInRange xtal q = true := by
  have hc2 : (0 : ℚ) < (q.c : ℚ) := by exact_mod_cast hc
  unfold vcoInRange
  rw [decide_eq_true_iff, vcoHz_eq_div xtal q hc, le_div_iff₀ hc2, div_le_iff₀ hc2]
  exact ⟨by exact_mod_cast hlo, by exact_mod_cast hhi⟩

/-- With the default 27 MHz crystal every VCO target inside the band gets a
PLL multiplier whose VCO is inside the band too: rounding the numerator to
the nearest of 1048575 steps never leaves `[600 MHz, 900 MHz]`. -/
theorem solve_default_in_band (T : Nat) (h1 : 600000000 ≤ T) (h2 : T ≤ 900000000) :
    ∃ q, solve T SI_XTAL SI5351_PLL_A_MIN SI5351_PLL_A_MAX SI5351_PLL_C_MAX = Except.ok q ∧
      vcoInRange SI_XTAL q = true := by
  simp only [solve, SI_XTAL, SI5351_PLL_A_MIN, SI5351_PLL_A_MAX, SI5351_PLL_C_MAX]
  have hg : ¬ (27000000 = 0 ∨ T / 27000000 < 15 ∨ 90 < T / 27000000) := by omega
  rw [if_neg hg]
  by_cases hr : T % 27000000 = 0
  · rw [if_pos hr]
    refine ⟨_, rfl, ?_⟩
    apply vcoInRange_of_nat
    · simp
    · simp only [SI5351_PLL_VCO_MIN]; omega
    · simp only [SI5351_PLL_VCO_MAX]; omega
  · rw [if_neg hr]
    refine ⟨_, rfl, ?_⟩
    apply vcoInRange_of_nat
    · simp
    · simp only [SI5351_PLL_VCO_MIN]; omega
    · simp only [SI5351_PLL_VCO_MAX]; omega

/-- A candidate pair whose VCO target is inside the band is valid under the
default crystal. -/
theorem candidatePlan_default_isSome (f d r : Nat)
    (h1 : 600000000 ≤ f * d * r) (h2 : f * d * r ≤ 900000000) :
    ∃ p, candidatePlan SI_XTAL f d r = some p := by
  obtain ⟨q, hq, hv⟩ := solve_default_in_band (f * d * r) h1 h2
  refine ⟨⟨q, ⟨d, 0, 1⟩, r⟩, ?_⟩
  unfold candidatePlan
  rw [hq]
  simp only
  rw [if_pos hv]

/-- For a positive step `n` the largest multiple of `n` not above `T` is
within `n` of `T`. -/
theorem floor_multiple_bounds (T n : Nat) (hn : 0 < n) :
    T / n * n ≤ T ∧ T < T / n * n + n := by
  refine ⟨Nat.div_mul_le_self T n, ?_⟩
  have := Nat.div_add_mod T n
  have hm := Nat.mod_lt T hn
  nlinarith [Nat.mul_comm n (T / n)]

/-- An effective output step `n = targetHz * r` between 500 kHz and 100 MHz
has an integer divider in 6..1800 that puts the VCO in 800..900 MHz. -/
theorem divider_for_step (n : Nat) (h1 : 500000 ≤ n) (h2 : n < 100000000) :
    6 ≤ 900000000 / n ∧ 900000000 / n ≤ 1800 ∧
    800000000 < 900000000 / n * n ∧ 900000000 / n * n ≤ 900000000 := by
  obtain ⟨hle, hlt⟩ := floor_multiple_bounds 900000000 n (by omega)
  refine ⟨?_, ?_, by omega, hle⟩
  · rw [Nat.le_div_iff_mul_le (by omega)]
    omega
  · apply Nat.div_le_of_le_mul
    omega

/-- Every target in `[4000, 225000000]` Hz has a candidate divider and a
post-divider that put the VCO `targetHz * d * r` inside `[600 MHz, 900 MHz]`. -/
theorem exists_divider (f : Nat) (hmin : 4000 ≤ f) (hmax : f ≤ 225000000) :
    ∃ d ∈ dividerCandidates f, ∃ r ∈ postDividers,
      600000000 ≤ f * d * r ∧ f * d * r ≤ 900000000 := by
  have step : ∀ r : Nat, r ∈ postDividers → 500000 ≤ f * r → f * r < 100000000 →
      ∃ d ∈ dividerCandidates f, ∃ r ∈ postDividers,
        600000000 ≤ f * d * r ∧ f * d * r ≤ 900000000 := by
    intro r hr h1 h2
    obtain ⟨a1, a2, a3, a4⟩ := divider_for_step (f * r) h1 h2
    have hr1 : 1 ≤ r := by
      rcases (mem_postDividers r).mp hr with e | e | e | e | e | e | e | e <;> omega
    have hf : f ≤ 150000000 := by nlinarith
    refine ⟨900000000 / (f * r), ?_, r, hr, ?_⟩
    · rw [mem_dividerCandidates]
      exact Or.inr ⟨hf, a1, a2⟩
    · have e : f * (900000000 / (f * r)) * r = 900000000 / (f * r) * (f * r) := by ring
      rw [e]
      omega
  by_cases c1 : 150000000 < f
  · refine ⟨4, ?_, 1, by decide, by omega, by omega⟩
    rw [mem_dividerCandidates]
    exact Or.inl ⟨c1, rfl⟩
  by_cases c2 : 100000000 ≤ f
  · refine ⟨6, ?_, 1, by decide, by omega, by omega⟩
    rw [mem_dividerCandidates]
    exact Or.inr ⟨by simp only [SI5351_MULTISYNTH_DIVBY4_FREQ]; omega, by decide, by decide⟩
  by_cases c3 : 500000 ≤ f
  · exact step 1 (by decide) (by omega) (by omega)
  by_cases c4 : 250000 ≤ f
  · exact step 2 (by decide) (by omega) (by omega)
  by_cases c5 : 125000 ≤ f
  · exact step 4 (by decide) (by omega) (by omega)
  by_cases c6 : 62500 ≤ f
  · exact step 8 (by decide) (by omega) (by omega)
  by_cases c7 : 31250 ≤ f
  · exact step 16 (by decide) (by omega) (by omega)
  by_cases c8 : 15625 ≤ f
  · exact step 32 (by decide) (by omega) (by omega)
  by_cases c9 : 7813 ≤ f
  · exact step 64 (by decide) (by omega) (by omega)
  · exact step 128 (by decide) (by omega) (by omega)

/-- Under the default crystal the owner search succeeds for every target in
`[4000, 225000000]` Hz, and its result is one of the valid candidates. -/
theorem planOwner_default_total (f : Nat) (hmin : 4000 ≤ f) (hmax : f ≤ 225000000) :
    ∃ p, planOwner SI_XTAL f = Except.ok p ∧ p ∈ ownerCandidates SI_XTAL f := by
  obtain ⟨d, hd, r, hr, h1, h2⟩ := exists_divider f hmin hmax
  obtain ⟨c, hc⟩ := candidatePlan_default_isSome f d r h1 h2
  have hmem : c ∈ ownerCandidates SI_XTAL f :=
    (mem_ownerCandidates SI_XTAL f c).mpr ⟨d, hd, r, hr, hc⟩
  obtain ⟨p, hp⟩ := selectBest_isSome SI_XTAL f _ c hmem
  refine ⟨p, ?_, selectBest_mem SI_XTAL f _ p hp⟩
  unfold planOwner
  rw [hp]

/-- C4: for every target frequency in `[4000, 225000000]` Hz there are an
output post-divider `r` in 1, 2, 4, ..., 128 and a multisynth integer divider
`d` (4, or 6..1800) such that the VCO `targetHz * d * r` lies in
`[600 MHz, 900 MHz]`, and with the default 27 MHz crystal the PLL integer
multiplier `floor(VCO / 27000000)` lies in `[15, 90]`. -/
theorem C4_valid_divider_exists (targetHz : Nat)
    (hmin : SI5351_CLKOUT_MIN_FREQ ≤ targetHz) (hmax : targetHz ≤ SI5351_CLKOUT_MAX_FREQ) :
    ∃ r d : Nat, r ∈ postDividers ∧
      (d = 4 ∨ (SI5351_MULTISYNTH_A_MIN ≤ d ∧ d ≤ SI5351_MULTISYNTH_A_MAX)) ∧
      SI5351_PLL_VCO_MIN ≤ targetHz * d * r ∧ targetHz * d * r ≤ SI5351_PLL_VCO_MAX ∧
      SI5351_PLL_A_MIN ≤ targetHz * d * r / SI_XTAL ∧
      targetHz * d * r / SI_XTAL ≤ SI5351_PLL_A_MAX := by
  obtain ⟨d, hd, r, hr, h1, h2⟩ := exists_divider targetHz hmin hmax
  refine ⟨r, d, hr, ?_, h1, h2, ?_, ?_⟩
  · rcases (mem_dividerCandidates targetHz d).mp hd with ⟨_, e⟩ | ⟨_, e⟩
    · exact Or.inl e
    · exact Or.inr e
  · simp only [SI5351_PLL_A_MIN, SI_XTAL]
    omega
  · simp only [SI5351_PLL_A_MAX, SI_XTAL]
    omega

/-- Witness for C4 at 10 MHz. -/
theorem C4_valid_divider_exists_witness :
    ∃ r d : Nat, r ∈ postDividers ∧
      (d = 4 ∨ (SI5351_MULTISYNTH_A_MIN ≤ d ∧ d ≤ SI5351_MULTISYNTH_A_MAX)) ∧
      SI5351_PLL_VCO_MIN ≤ 10000000 * d * r ∧ 10000000 * d * r ≤ SI5351_PLL_VCO_MAX ∧
      SI5351_PLL_A_MIN ≤ 10000000 * d * r / SI_XTAL ∧
      10000000 * d * r / SI_XTAL ≤ SI5351_PLL_A_MAX :=
  C4_valid_divider_exists 10000000 (by decide) (by decide)

/-! ### Exact integer solutions -/

/-- An exact integer solution `SI_XTAL * a = f * d * r` inside the VCO band,
with `d` a candidate divider, is a valid candidate of the owner search and
its frequency error is zero. -/
theorem exact_candidate (f a d r : Nat) (hd : d ∈ dividerCandidates f) (hr : r ∈ postDividers)
    (he : SI_XTAL * a = f * d * r)
    (hlo : SI5351_PLL_VCO_MIN ≤ SI_XTAL * a) (hhi : SI_XTAL * a ≤ SI5351_PLL_VCO_MAX) :
    ∃ c ∈ ownerCandidates SI_XTAL f, c.err SI_XTAL f = 0 := by
  have hr1 : 1 ≤ r := by
    rcases (mem_postDividers r).mp hr with e | e | e | e | e | e | e | e <;> omega
  have hd1 : 4 ≤ d := by
    rcases (mem_dividerCandidates f d).mp hd with ⟨_, e⟩ | ⟨_, e, _⟩
    · omega
    · simp only [SI5351_MULTISYNTH_A_MIN] at e
      omega
  simp only [SI5351_PLL_VCO_MIN, SI5351_PLL_VCO_MAX, SI_XTAL] at hlo hhi
  have hs : solve (f * d * r) SI_XTAL SI5351_PLL_A_MIN SI5351_PLL_A_MAX SI5351_PLL_C_MAX
      = Except.ok ⟨a, 0, 1⟩ := by
    rw [← he]
    simp only [solve, SI_XTAL, SI5351_PLL_A_MIN, SI5351_PLL_A_MAX]
    have h1 : 27000000 * a / 27000000 = a := Nat.mul_div_cancel_left a (by decide)
    have h2 : 27000000 * a % 27000000 = 0 := Nat.mul_mod_right 27000000 a
    rw [h1, h2]
    have hg : ¬ ((27000000 : Nat) = 0 ∨ a < 15 ∨ 90 < a) := by omega
    rw [if_neg hg, if_pos rfl]
  have hv : vcoInRange SI_XTAL ⟨a, 0, 1⟩ = true := by
    apply vcoInRange_of_nat
    · exact Nat.one_pos
    · simp only [SI5351_PLL_VCO_MIN, SI_XTAL]
      omega
    · simp only [SI5351_PLL_VCO_MAX, SI_XTAL]
      omega
  refine ⟨⟨⟨a, 0, 1⟩, ⟨d, 0, 1⟩, r⟩, ?_, ?_⟩
  · rw [mem_ownerCandidates]
    refine ⟨d, hd, r, hr, ?_⟩
    unfold candidatePlan
    rw [hs]
    simp only
    rw [if_pos hv]
  · have hdq : (0 : ℚ) < (d : ℚ) := by exact_mod_cast (by omega : 0 < d)
    have hrq : (0 : ℚ) < (r : ℚ) := by exact_mod_cast (by omega : 0 < r)
    have heq : (SI_XTAL : ℚ) * (a : ℚ) = (f : ℚ) * (d : ℚ) * (r : ℚ) := by exact_mod_cast he
    simp only [Plan.err, Plan.outHz, vcoHz, Ratio.value]
    rw [abs_eq_zero, sub_eq_zero]
    simp only [Nat.cast_zero, Nat.cast_one, zero_div, add_zero]
    rw [heq]
    field_simp
    ring

/-- An exact integer solution with any admissible divider (4, or 6..1800)
can be rewritten with a candidate divider of the owner search: above 150 MHz
only 4 fits the band, and below it `4 * r` with `r >= 2` equals `8 * (r/2)`. -/
theorem exact_solution_as_candidate (f a d r : Nat)
    (hd : d = 4 ∨ (SI5351_MULTISYNTH_A_MIN ≤ d ∧ d ≤ SI5351_MULTISYNTH_A_MAX))
    (hr : r ∈ postDividers) (he : SI_XTAL * a = f * d * r)
    (hlo : SI5351_PLL_VCO_MIN ≤ SI_XTAL * a) (hhi : SI_XTAL * a ≤ SI5351_PLL_VCO_MAX) :
    ∃ d2 ∈ dividerCandidates f, ∃ r2 ∈ postDividers, SI_XTAL * a = f * d2 * r2 := by
  simp only [SI5351_PLL_VCO_MIN, SI5351_PLL_VCO_MAX, SI_XTAL, SI5351_MULTISYNTH_A_MIN,
    SI5351_MULTISYNTH_A_MAX] at hd hlo hhi he ⊢
  have hr8 := (mem_postDividers r).mp hr
  have hr1 : 1 ≤ r := by
    rcases hr8 with e | e | e | e | e | e | e | e <;> omega
  by_cases hf : 150000000 < f
  · -- only d = 4, r = 1 keeps f * d * r at or below 900 MHz
    have hdr : d * r < 6 := by
      by_contra hc
      have h6 : 6 ≤ d * r := by omega
      have : f * 6 ≤ f * (d * r) := Nat.mul_le_mul_left f h6
      have e2 : f * d * r = f * (d * r) := by ring
      omega
    have hd4 : d = 4 := by
      rcases hd with e | ⟨e, _⟩
      · exact e
      · have : d * 1 ≤ d * r := Nat.mul_le_mul_left d hr1
        omega
    refine ⟨4, ?_, r, hr, ?_⟩
    · rw [mem_dividerCandidates]
      exact Or.inl ⟨hf, rfl⟩
    · rw [he, hd4]
  · have hf2 : f ≤ 150000000 := by omega
    have h8 : 8 ∈ dividerCandidates f := by
      rw [mem_dividerCandidates]
      exact Or.inr ⟨hf2, by decide, by decide⟩
    rcases hd with e | ⟨e1, e2⟩
    · subst e
      have key : ∀ r2 : Nat, r2 ∈ postDividers → r = 2 * r2 →
          ∃ d2 ∈ dividerCandidates f, ∃ r2 ∈ postDividers, 27000000 * a = f * d2 * r2 := by
        intro r2 hr2 e
        refine ⟨8, h8, r2, hr2, ?_⟩
        rw [he, e]
        ring
      rcases hr8 with e | e | e | e | e | e | e | e
      · -- r = 1 would need 27 MHz * a = 4 * f = 600 MHz
        subst e
        omega
      · exact key 1 (by decide) (by omega)
      · exact key 2 (by decide) (by omega)
      · exact key 4 (by decide) (by omega)
      · exact key 8 (by decide) (by omega)
      · exact key 16 (by decide) (by omega)
      · exact key 32 (by decide) (by omega)
      · exact key 64 (by decide) (by omega)
    · refine ⟨d, ?_, r, hr, he⟩
      rw [mem_dividerCandidates]
      exact Or.inr ⟨hf2, e1, e2⟩

/-- C1: for every target in `[4000, 225000000]` Hz and the default 27 MHz
crystal the planner returns a plan (PLL multiplier `a + b/c`, multisynth
integer divider `d`, post-divider `r`) with
`600000000 <= 27000000 * (a + b/c) <= 900000000`; the multiplier and the
divider are within their documented ranges; it is the plan `si5351mcu_setFreq`
uses for a channel that owns its PLL; and whenever an exact integer solution
`27000000 * a = targetHz * d * r` exists in the band, the output frequency
`VCO / (d * r)` of the plan is within 1 Hz of the target. -/
theorem C1_plan_vco_in_band (targetHz : Nat)
    (hmin : SI5351_CLKOUT_MIN_FREQ ≤ targetHz) (hmax : targetHz ≤ SI5351_CLKOUT_MAX_FREQ) :
    ∃ p : Plan, planOwner SI_XTAL targetHz = Except.ok p ∧
      (SI5351_PLL_VCO_MIN : ℚ)
        ≤ (SI_XTAL : ℚ) * ((p.pll.a : ℚ) + (p.pll.b : ℚ) / (p.pll.c : ℚ)) ∧
      (SI_XTAL : ℚ) * ((p.pll.a : ℚ) + (p.pll.b : ℚ) / (p.pll.c : ℚ))
        ≤ (SI5351_PLL_VCO_MAX : ℚ) ∧
      (SI5351_PLL_A_MIN ≤ p.pll.a ∧ p.pll.a ≤ SI5351_PLL_A_MAX ∧
        p.pll.b < p.pll.c ∧ p.pll.c ≤ SI5351_PLL_C_MAX) ∧
      (p.ms.a ∈ dividerCandidates targetHz ∧ p.ms.b = 0 ∧ p.ms.c = 1 ∧
        p.rdiv ∈ postDividers) ∧
      (∀ (isOwner : Fin SICHANNELS → Bool) (dev : Device) (channel : Fin SICHANNELS),
        isOwner channel = true → dev.tracker.int_xtal = SI_XTAL →
        planFor isOwner dev channel targetHz = Except.ok p) ∧
      ((∃ a d r : Nat,
          (d = 4 ∨ (SI5351_MULTISYNTH_A_MIN ≤ d ∧ d ≤ SI5351_MULTISYNTH_A_MAX)) ∧
          r ∈ postDividers ∧ SI_XTAL * a = targetHz * d * r ∧
          SI5351_PLL_VCO_MIN ≤ SI_XTAL * a ∧ SI_XTAL * a ≤ SI5351_PLL_VCO_MAX) →
        |(SI_XTAL : ℚ) * ((p.pll.a : ℚ) + (p.pll.b : ℚ) / (p.pll.c : ℚ))
            / ((p.ms.a : ℚ) * (p.rdiv : ℚ)) - (targetHz : ℚ)| ≤ 1) := by
  obtain ⟨p, hp, hmem⟩ := planOwner_default_total targetHz hmin hmax
  obtain ⟨d, hd, r, hr, hc⟩ := (mem_ownerCandidates SI_XTAL targetHz p).mp hmem
  obtain ⟨hs, hv, hms, hrd⟩ := candidatePlan_eq_some SI_XTAL targetHz d r p hc
  have hband := of_decide_eq_true hv
  have hwf := solve_wellformed _ _ _ _ _ p.pll (by decide) hs
  have hma : p.ms.a = d := by rw [hms]
  have hmb : p.ms.b = 0 := by rw [hms]
  have hmc : p.ms.c = 1 := by rw [hms]
  refine ⟨p, hp, hband.1, hband.2, hwf, ⟨?_, hmb, hmc, ?_⟩, ?_, ?_⟩
  · rw [hma]
    exact hd
  · rw [hrd]
    exact hr
  · intro isOwner dev channel ho hx
    unfold planFor
    rw [if_pos ho, hx]
    exact hp
  · rintro ⟨a, d0, r0, hd0, hr0, he, hlo, hhi⟩
    obtain ⟨d2, hd2, r2, hr2, he2⟩ :=
      exact_solution_as_candidate targetHz a d0 r0 hd0 hr0 he hlo hhi
    obtain ⟨c, hcm, hce⟩ := exact_candidate targetHz a d2 r2 hd2 hr2 he2 hlo hhi
    have hsel : selectBest SI_XTAL targetHz (ownerCandidates SI_XTAL targetHz) = some p := by
      unfold planOwner at hp
      cases hsb : selectBest SI_XTAL targetHz (ownerCandidates SI_XTAL targetHz) with
      | none =>
        rw [hsb] at hp
        exact Except.noConfusion hp
      | some q =>
        rw [hsb] at hp
        injection hp with hp
        rw [hp]
    have hle := selectBest_le SI_XTAL targetHz _ p hsel c hcm
    rw [hce] at hle
    have herr : p.err SI_XTAL targetHz
        = |(SI_XTAL : ℚ) * ((p.pll.a : ℚ) + (p.pll.b : ℚ) / (p.pll.c : ℚ))
            / ((p.ms.a : ℚ) * (p.rdiv : ℚ)) - (targetHz : ℚ)| := by
      simp only [Plan.err, Plan.outHz, vcoHz, Ratio.value, hmb, hmc]
      simp
    rw [← herr]
    linarith

/-- Witness for C1 at 13.5 MHz, where `27 MHz * 33 = 13.5 MHz * 66` is an
exact integer solution. -/
theorem C1_plan_vco_in_band_witness :
    ∃ p : Plan, planOwner SI_XTAL 13500000 = Except.ok p ∧
      (SI5351_PLL_VCO_MIN : ℚ)
        ≤ (SI_XTAL : ℚ) * ((p.pll.a : ℚ) + (p.pll.b : ℚ) / (p.pll.c : ℚ)) ∧
      (SI_XTAL : ℚ) * ((p.pll.a : ℚ) + (p.pll.b : ℚ) / (p.pll.c : ℚ))
        ≤ (SI5351_PLL_VCO_MAX : ℚ) ∧
      |(SI_XTAL : ℚ) * ((p.pll.a : ℚ) + (p.pll.b : ℚ) / (p.pll.c : ℚ))
          / ((p.ms.a : ℚ) * (p.rdiv : ℚ)) - ((13500000 : Nat) : ℚ)| ≤ 1 := by
  obtain ⟨p, h1, h2, h3, _, _, _, h7⟩ :=
    C1_plan_vco_in_band 13500000 (by decide) (by decide)
  exact ⟨p, h1, h2, h3,
    h7 ⟨33, 66, 1, Or.inr ⟨by decide, by decide⟩, by decide, by decide, by decide, by decide⟩⟩

/-! ### Reset avoidance -/

/-- Applying a plan does not change what the planner computes for the same
channel: an owner's plan depends on the corrected crystal only, any other
channel's plan on the crystal and on a PLL multiplier it did not touch. -/
theorem planFor_applyPlan (isOwner : Fin SICHANNELS → Bool) (dev : Device)
    (channel : Fin SICHANNELS) (f : Nat) (p : Plan) :
    planFor isOwner (applyPlan isOwner dev channel p).1 channel f
      = planFor isOwner dev channel f := by
  unfold planFor applyPlan
  by_cases ho : isOwner channel = true
  · simp only [ho, if_true]
  · have ho2 : isOwner channel = false := by
      cases hv : isOwner channel
      · rfl
      · exact absurd hv ho
    simp only [ho2, Bool.false_eq_true, if_false]

/-- Once a plan is applied, the tracker holds its divider and post-divider,
so the same plan needs no reset. -/
theorem resetNeeded_applyPlan (isOwner : Fin SICHANNELS → Bool) (dev : Device)
    (channel : Fin SICHANNELS) (p : Plan) :
    resetNeeded (applyPlan isOwner dev channel p).1 channel p = false := by
  unfold resetNeeded applyPlan
  simp

/-- One planning call writes the reset register once when a reset is needed
and not at all otherwise. -/
theorem resetCount_applyPlan (isOwner : Fin SICHANNELS → Bool) (dev : Device)
    (channel : Fin SICHANNELS) (p : Plan) :
    resetCount (applyPlan isOwner dev channel p).2
      = if resetNeeded dev channel p then 1 else 0 := by
  unfold applyPlan resetCount
  cases isOwner channel <;> cases resetNeeded dev channel p <;>
    simp [RegWrite.isReset]

/-- A first call on a channel whose stored divider is still 0 (nothing
programmed yet) does issue the reset: every candidate divider is at least 4. -/
theorem first_call_resets (isOwner : Fin SICHANNELS → Bool) (dev : Device)
    (channel : Fin SICHANNELS) (f : Nat) (ho : isOwner channel = true)
    (hx : dev.tracker.int_xtal = SI_XTAL) (h0 : dev.tracker.omsynth channel = 0)
    (hmin : SI5351_CLKOUT_MIN_FREQ ≤ f) (hmax : f ≤ SI5351_CLKOUT_MAX_FREQ) :
    resetsOf (si5351mcu_setFreq isOwner dev channel f) = 1 := by
  obtain ⟨p, hp, hmem⟩ := planOwner_default_total f hmin hmax
  obtain ⟨d, hd, r, hr, hc⟩ := (mem_ownerCandidates SI_XTAL f p).mp hmem
  obtain ⟨_, _, hms, _⟩ := candidatePlan_eq_some SI_XTAL f d r p hc
  have hd4 : 4 ≤ d := by
    rcases (mem_dividerCandidates f d).mp hd with ⟨_, e⟩ | ⟨_, e, _⟩
    · omega
    · simp only [SI5351_MULTISYNTH_A_MIN] at e
      omega
  have hpa : p.ms.a = d := by rw [hms]
  have hpf : planFor isOwner dev channel f = Except.ok p := by
    unfold planFor
    rw [if_pos ho, hx]
    exact hp
  have hr2 : ¬ (f < SI5351_CLKOUT_MIN_FREQ ∨ SI5351_CLKOUT_MAX_FREQ < f) := by omega
  have hrn : resetNeeded dev channel p = true := by
    unfold resetNeeded
    rw [decide_eq_true_iff]
    left
    omega
  unfold si5351mcu_setFreq
  rw [if_neg hr2, hpf]
  simp only [resetsOf]
  rw [resetCount_applyPlan, hrn]
  rfl

/-- C3: calling `setFrequency(ch, f)` twice in a row, for every channel,
every target and every starting state, issues at most one PLL reset on the
first call and none on the second: after a successful first call the second
call succeeds with the same plan, finds `omsynth[ch]` and `o_Rdiv[ch]` equal
to the divider and post-divider it computes, and writes no reset; a failed
call writes nothing.  For a PLL owner under the default crystal an in-range
first call does succeed. -/
theorem C3_second_call_issues_no_reset (isOwner : Fin SICHANNELS → Bool) (dev : Device)
    (channel : Fin SICHANNELS) (targetHz : Nat) :
    resetsOf (si5351mcu_setFreq isOwner dev channel targetHz) ≤ 1 ∧
    (∀ dev1 ws1, si5351mcu_setFreq isOwner dev channel targetHz = Except.ok (dev1, ws1) →
      ∃ dev2 ws2 p, si5351mcu_setFreq isOwner dev1 channel targetHz = Except.ok (dev2, ws2) ∧
        planFor isOwner dev1 channel targetHz = Except.ok p ∧
        dev1.tracker.omsynth channel = p.ms.a ∧ dev1.tracker.o_Rdiv channel = p.rdiv ∧
        resetCount ws2 = 0 ∧ (∀ w ∈ ws2, w.isReset = false) ∧
        dev2.tracker.omsynth channel = dev1.tracker.omsynth channel ∧
        dev2.tracker.o_Rdiv channel = dev1.tracker.o_Rdiv channel) ∧
    (∀ e, si5351mcu_setFreq isOwner dev channel targetHz = Except.error e →
      resetsOf (si5351mcu_setFreq isOwner dev channel targetHz) = 0) ∧
    (isOwner channel = true → dev.tracker.int_xtal = SI_XTAL →
      SI5351_CLKOUT_MIN_FREQ ≤ targetHz → targetHz ≤ SI5351_CLKOUT_MAX_FREQ →
      ∃ dev1 ws1, si5351mcu_setFreq isOwner dev channel targetHz = Except.ok (dev1, ws1)) := by
  refine ⟨?_, ?_, ?_, ?_⟩
  · unfold si5351mcu_setFreq
    by_cases hr : targetHz < SI5351_CLKOUT_MIN_FREQ ∨ SI5351_CLKOUT_MAX_FREQ < targetHz
    · rw [if_pos hr]
      simp [resetsOf]
    · rw [if_neg hr]
      cases hp : planFor isOwner dev channel targetHz with
      | error e => simp [resetsOf]
      | ok p =>
        simp only [resetsOf]
        rw [resetCount_applyPlan]
        split <;> omega
  · intro dev1 ws1 h1
    unfold si5351mcu_setFreq at h1
    by_cases hr : targetHz < SI5351_CLKOUT_MIN_FREQ ∨ SI5351_CLKOUT_MAX_FREQ < targetHz
    · rw [if_pos hr] at h1
      exact Except.noConfusion h1
    · rw [if_neg hr] at h1
      cases hp : planFor isOwner dev channel targetHz with
      | error e =>
        rw [hp] at h1
        exact Except.noConfusion h1
      | ok p =>
        rw [hp] at h1
        simp only at h1
        injection h1 with h1
        have hd1 : dev1 = (applyPlan isOwner dev channel p).1 := by rw [h1]
        have hp2 : planFor isOwner dev1 channel targetHz = Except.ok p := by
          rw [hd1, planFor_applyPlan, hp]
        have hrn : resetNeeded dev1 channel p = false := by
          rw [hd1]
          exact resetNeeded_applyPlan isOwner dev channel p
        have hst : dev1.tracker.omsynth channel = p.ms.a ∧
            dev1.tracker.o_Rdiv channel = p.rdiv := by
          rw [hd1]
          simp [applyPlan]
        have hcount : resetCount (applyPlan isOwner dev1 channel p).2 = 0 := by
          rw [resetCount_applyPlan, hrn]
          simp
        refine ⟨(applyPlan isOwner dev1 channel p).1, (applyPlan isOwner dev1 channel p).2, p,
          ?_, hp2, hst.1, hst.2, hcount, ?_, ?_, ?_⟩
        · unfold si5351mcu_setFreq
          rw [if_neg hr, hp2]
        · intro w hw
          unfold resetCount at hcount
          have hnil := List.length_eq_zero.mp hcount
          cases hwr : w.isReset
          · rfl
          · have : w ∈ List.filter RegWrite.isReset (applyPlan isOwner dev1 channel p).2 :=
              List.mem_filter.mpr ⟨hw, hwr⟩
            rw [hnil] at this
            exact absurd this (List.not_mem_nil w)
        · simp [applyPlan, hst.1]
        · simp [applyPlan, hst.2]
  · intro e he
    rw [he]
    rfl
  · intro ho hx hmin hmax
    obtain ⟨p, hp, _⟩ := planOwner_default_total targetHz hmin hmax
    refine ⟨(applyPlan isOwner dev channel p).1, (applyPlan isOwner dev channel p).2, ?_⟩
    unfold si5351mcu_setFreq
    have hr : ¬ (targetHz < SI5351_CLKOUT_MIN_FREQ ∨ SI5351_CLKOUT_MAX_FREQ < targetHz) := by
      omega
    rw [if_neg hr]
    have hpf : planFor isOwner dev channel targetHz = Except.ok p := by
      unfold planFor
      rw [if_pos ho, hx]
      exact hp
    rw [hpf]

/-- Witness for C3: from the power-on state, with every channel tuning its
own PLL, setting CLK0 to 10 MHz twice succeeds both times; the first call
issues one reset, the second none. -/
theorem C3_second_call_issues_no_reset_witness :
    ∃ dev1 ws1 dev2 ws2,
      si5351mcu_setFreq (fun _ => true) powerOnDevice 0 10000000 = Except.ok (dev1, ws1) ∧
      si5351mcu_setFreq (fun _ => true) dev1 0 10000000 = Except.ok (dev2, ws2) ∧
      resetCount ws1 = 1 ∧ resetCount ws2 = 0 := by
  obtain ⟨_, h2, _, h4⟩ :=
    C3_second_call_issues_no_reset (fun _ => true) powerOnDevice 0 10000000
  obtain ⟨dev1, ws1, h1⟩ := h4 rfl rfl (by decide) (by decide)
  obtain ⟨dev2, ws2, _, hs2, _, _, _, hc2, _⟩ := h2 dev1 ws1 h1
  have hfirst := first_call_resets (fun _ => true) powerOnDevice 0 10000000 rfl rfl rfl
    (by decide) (by decide)
  rw [h1] at hfirst
  exact ⟨dev1, ws1, dev2, ws2, h1, hs2, hfirst, hc2⟩

end Si5351
